import Mathlib

/-!
Verification of the scheduled-task execution engine of
`packages/core/src/plugin/default-scheduler-plugin/default-scheduler-strategy.ts`
(class `DefaultSchedulerStrategy`).

The durable `ScheduledTaskRecord` table is modelled as a list of rows; each
store statement of the source (the conditional claim `UPDATE`, the two release
`UPDATE`s, the `INSERT ... orIgnore`) is embedded as a pure function on that
list.  Timestamps are natural numbers; the settlement of the
`Promise.race([task.execute(injector), timeoutPromise])` expression is
represented by a `RaceOutcome` value, and the availability of each store
round-trip by a `StoreBehavior` record, so that the whole trigger callback
returned by `executeTask` becomes a total function producing the final store,
the log events and the value (if any) thrown out of the callback.
-/

set_option autoImplicit false

namespace Scheduler

/-- The serialized `lastResult` column: either the task body's return value
(`result ?? ''` on the success path) or the structured failure record
written by the catch path (`lastResult: { error: errorMessage }`). -/
inductive TaskResult where
  | value : String → TaskResult
  | failure : String → TaskResult
  deriving Repr, DecidableEq

/-- One row of the `ScheduledTaskRecord` table. -/
structure TaskRow where
  taskId : String
  lockedAt : Option Nat
  lastExecutedAt : Option Nat
  lastResult : Option TaskResult
  enabled : Bool
  deriving Repr, DecidableEq

/-- The durable store: the rows of the `ScheduledTaskRecord` table. -/
abbrev Store := List TaskRow

/-- First row with the given `taskId` (the query
`.where('task.taskId = :id', { id }).getOne()`). -/
def findRow : Store → String → Option TaskRow
  | [], _ => none
  | r :: rs, id => if r.taskId = id then some r else findRow rs id

/-- Number of rows with the given `taskId`. -/
def countId : Store → String → Nat
  | [], _ => 0
  | r :: rs, id => (if r.taskId = id then 1 else 0) + countId rs id

/-- Whether a row with the given `taskId` exists. -/
def hasRow (s : Store) (id : String) : Bool := (findRow s id).isSome

/-- A well-formed store: `taskId` is the primary key, so row ids are distinct. -/
def WF (s : Store) : Prop := (s.map TaskRow.taskId).Nodup

instance (s : Store) : Decidable (WF s) := by
  unfold WF; infer_instance

/-- The mutual-exclusion primitive of `executeTask`:
`UPDATE ... SET lockedAt = new Date() WHERE taskId = :taskId AND lockedAt IS NULL`.
Returns the updated store together with the number of affected rows
(`taskEntity.affected`). -/
def tryClaim : Store → String → Nat → Store × Nat
  | [], _, _ => ([], 0)
  | r :: rs, id, now =>
    let p := tryClaim rs id now
    if r.taskId = id ∧ r.lockedAt = none then
      ({ r with lockedAt := some now } :: p.1, p.2 + 1)
    else
      (r :: p.1, p.2)

/-- The success-path release of `executeTask`:
`update({ taskId }, { lastExecutedAt: new Date(), lockedAt: null, lastResult: result ?? '' })`. -/
def releaseSuccess (s : Store) (id : String) (t : Nat) (res : String) : Store :=
  s.map fun r =>
    if r.taskId = id then
      { r with lastExecutedAt := some t, lockedAt := none,
               lastResult := some (TaskResult.value res) }
    else r

/-- The catch-path release of `executeTask`:
`update({ taskId }, { lockedAt: null, lastResult: { error: errorMessage } })`.
Note that, unlike the success path, it does not touch `lastExecutedAt`. -/
def releaseFailure (s : Store) (id : String) (msg : String) : Store :=
  s.map fun r =>
    if r.taskId = id then
      { r with lockedAt := none, lastResult := some (TaskResult.failure msg) }
    else r

/-- Modelled from the spec: the `ScheduledTaskRecord` entity definition
(`scheduled-task-record.entity.ts`) is not among the sources, so the column
defaults of a freshly inserted row come from the spec: a fresh row has null
`lockedAt` and null `lastExecutedAt` (and no result yet); `enabled` is the
operator-suppression flag, on by default. -/
def freshRow (id : String) : TaskRow :=
  { taskId := id, lockedAt := none, lastExecutedAt := none,
    lastResult := none, enabled := true }

/-- The row-creation statement of `ensureTaskIsRegistered`:
`insert().into(ScheduledTaskRecord).values({ taskId: task.id }).orIgnore()`.
`taskId` is the primary key, so the insert is ignored when the row exists. -/
def insertIgnore (s : Store) (id : String) : Store :=
  if hasRow s id then s else s ++ [freshRow id]

/-- A value thrown by the task body: either an `Error` instance carrying a
message, or any other thrown value (whose rendering the catch block never
reads). -/
inductive Thrown where
  | errorInstance : String → Thrown
  | nonError : String → Thrown
  deriving Repr, DecidableEq

/-- The catch block of `executeTask`:
`let errorMessage = 'Unknown error'; if (error instanceof Error) errorMessage = error.message`. -/
def errorMessage : Thrown → String
  | Thrown.errorInstance m => m
  | Thrown.nonError _ => "Unknown error"

/-- How `Promise.race([task.execute(this.injector), timeoutPromise])` settles:
the body resolves first with a value (`none` models `undefined`, folded to
`''` by `result ?? ''`), the body rejects or throws first, or the timeout
timer fires first (the timer rejects with `new Error('Task timed out')`). -/
inductive RaceOutcome where
  | bodyValue : Option String → RaceOutcome
  | bodyThrew : Thrown → RaceOutcome
  | timedOut : RaceOutcome
  deriving Repr, DecidableEq

/-- Whether each store round-trip of one attempt succeeds, or rejects with a
`StoreUnavailable` condition. -/
structure StoreBehavior where
  insertOk : Bool
  claimOk : Bool
  successWriteOk : Bool
  failureWriteOk : Bool
  deriving Repr, DecidableEq

/-- A fully available store. -/
def reliable : StoreBehavior :=
  { insertOk := true, claimOk := true, successWriteOk := true, failureWriteOk := true }

/-- One `Logger` call, by level. -/
inductive LogEvent where
  | verbose : String → LogEvent
  | warn : String → LogEvent
  | error : String → LogEvent
  deriving Repr, DecidableEq

/-- Everything observable about one run of the trigger callback: the final
store, the log events in order, whether the task body was started, how many
release writes reached the store, and the condition (if any) thrown out of
the callback to the trigger collaborator. -/
structure AttemptResult where
  store : Store
  logs : List LogEvent
  bodyExecuted : Bool
  releaseWrites : Nat
  thrownOut : Option String
  deriving Repr, DecidableEq

/-- The catch block of `executeTask`: log the error, then attempt the
catch-path release write; its own rejection escapes the callback. -/
def catchPath (beh : StoreBehavior) (id : String) (s : Store) (logs : List LogEvent)
    (writes : Nat) (msg : String) : AttemptResult :=
  let logs1 := logs ++ [LogEvent.error
    ("Scheduled task \"" ++ id ++ "\" failed with error: " ++ msg)]
  if beh.failureWriteOk then
    { store := releaseFailure s id msg, logs := logs1, bodyExecuted := true,
      releaseWrites := writes + 1, thrownOut := none }
  else
    { store := s, logs := logs1, bodyExecuted := true,
      releaseWrites := writes, thrownOut := some "StoreUnavailable" }

/-- The trigger callback returned by `DefaultSchedulerStrategy.executeTask`,
as a function of the process role (`processContext.isServer`), the store
behaviour, the race settlement, the claim timestamp `now` (`new Date()` at
the claim) and the release timestamp `execTime` (`new Date()` at the success
write). -/
def executeTask (beh : StoreBehavior) (isServer : Bool) (id : String)
    (timeoutMs : Nat) (outcome : RaceOutcome) (now execTime : Nat)
    (s : Store) : AttemptResult :=
  if isServer then
    { store := s, logs := [], bodyExecuted := false, releaseWrites := 0, thrownOut := none }
  else if beh.insertOk = false then
    { store := s, logs := [], bodyExecuted := false, releaseWrites := 0,
      thrownOut := some "StoreUnavailable" }
  else
    let s1 := insertIgnore s id
    if beh.claimOk = false then
      { store := s1, logs := [], bodyExecuted := false, releaseWrites := 0,
        thrownOut := some "StoreUnavailable" }
    else
      let p := tryClaim s1 id now
      if p.2 = 0 then
        { store := p.1, logs := [], bodyExecuted := false, releaseWrites := 0,
          thrownOut := none }
      else
        let logs0 := [LogEvent.verbose ("Executing scheduled task \"" ++ id ++ "\"")]
        match outcome with
        | RaceOutcome.bodyValue v =>
          if beh.successWriteOk then
            { store := releaseSuccess p.1 id execTime (v.getD ""),
              logs := logs0 ++ [LogEvent.verbose
                ("Scheduled task \"" ++ id ++ "\" completed successfully")],
              bodyExecuted := true, releaseWrites := 1, thrownOut := none }
          else
            catchPath beh id p.1 logs0 0 "StoreUnavailable"
        | RaceOutcome.bodyThrew t =>
          catchPath beh id p.1 logs0 0 (errorMessage t)
        | RaceOutcome.timedOut =>
          catchPath beh id p.1
            (logs0 ++ [LogEvent.warn
              ("Scheduled task " ++ id ++ " timed out after " ++ toString timeoutMs ++ "ms")])
            0 "Task timed out"

/-- The reporting shape produced by `entityToReport`. -/
structure TaskReport where
  id : String
  lastExecutedAt : Option Nat
  isRunning : Bool
  lastResult : Option TaskResult
  enabled : Bool
  deriving Repr, DecidableEq

/-- `entityToReport`: `{ id: taskId, lastExecutedAt, isRunning: lockedAt !== null, lastResult, enabled }`. -/
def entityToReport (r : TaskRow) : TaskReport :=
  { id := r.taskId, lastExecutedAt := r.lastExecutedAt,
    isRunning := r.lockedAt.isSome, lastResult := r.lastResult,
    enabled := r.enabled }

/-- `getTasks`: map every row through `entityToReport`. -/
def getTasks (s : Store) : List TaskReport := s.map entityToReport

/-- `getTask`: map the row with the given id, `undefined` when absent. -/
def getTask (s : Store) (id : String) : Option TaskReport :=
  (findRow s id).map entityToReport

/-- A sequence of `tryClaim` attempts for one id against the same store, in
the order in which the store serializes the concurrent conditional updates;
returns the final store and the number of attempts that affected a row. -/
def runClaims (id : String) : Store → List Nat → Store × Nat
  | s, [] => (s, 0)
  | s, t :: ts =>
    let p := tryClaim s id t
    let q := runClaims id p.1 ts
    (q.1, (if p.2 = 0 then 0 else 1) + q.2)

/-- Flip the `enabled` flag of every row with the given id (used to state
that the claim step never consults `enabled`). -/
def setEnabled (s : Store) (id : String) (b : Bool) : Store :=
  s.map fun r => if r.taskId = id then { r with enabled := b } else r

/-! ### Supporting lemmas about the store primitives -/

/-- Every row for `id` is currently locked, so the claim predicate
(`taskId = :taskId AND lockedAt IS NULL`) matches no row. -/
def AllLocked (s : Store) (id : String) : Prop :=
  ∀ r, r ∈ s → r.taskId = id → r.lockedAt ≠ none

theorem findRow_mem {s : Store} {id : String} {r : TaskRow}
    (h : findRow s id = some r) : r ∈ s ∧ r.taskId = id := by
  induction s with
  | nil => simp [findRow] at h
  | cons x xs ih =>
    by_cases hx : x.taskId = id
    · simp only [findRow, if_pos hx, Option.some.injEq] at h
      subst h
      exact ⟨List.mem_cons_self _ _, hx⟩
    · simp only [findRow, if_neg hx] at h
      rcases ih h with ⟨h1, h2⟩
      exact ⟨List.mem_cons_of_mem _ h1, h2⟩

theorem findRow_eq_none {s : Store} {id : String}
    (h : id ∉ s.map TaskRow.taskId) : findRow s id = none := by
  induction s with
  | nil => rfl
  | cons x xs ih =>
    simp only [List.map_cons, List.mem_cons, not_or] at h
    have hx : ¬x.taskId = id := fun hx => h.1 hx.symm
    simp only [findRow, if_neg hx]
    exact ih h.2

theorem tryClaim_allLocked {s : Store} {id : String} (now : Nat)
    (h : AllLocked s id) : tryClaim s id now = (s, 0) := by
  induction s with
  | nil => rfl
  | cons x xs ih =>
    have hx : ¬(x.taskId = id ∧ x.lockedAt = none) := by
      rintro ⟨h1, h2⟩
      exact h x (List.mem_cons_self _ _) h1 h2
    have hxs : AllLocked xs id := fun r hr => h r (List.mem_cons_of_mem _ hr)
    simp only [tryClaim, if_neg hx, ih hxs]

theorem allLocked_of_not_mem {s : Store} {id : String}
    (h : id ∉ s.map TaskRow.taskId) : AllLocked s id := by
  intro r hr hid
  exact absurd (List.mem_map_of_mem TaskRow.taskId hr) (hid ▸ h)

theorem tryClaim_map_taskId (s : Store) (id : String) (now : Nat) :
    ((tryClaim s id now).1).map TaskRow.taskId = s.map TaskRow.taskId := by
  induction s with
  | nil => rfl
  | cons x xs ih =>
    by_cases hx : x.taskId = id ∧ x.lockedAt = none
    · simp only [tryClaim, if_pos hx, List.map_cons, ih]
    · simp only [tryClaim, if_neg hx, List.map_cons, ih]

theorem allLocked_tryClaim (s : Store) (id : String) (now : Nat) :
    AllLocked (tryClaim s id now).1 id := by
  induction s with
  | nil => intro r hr; simp [tryClaim] at hr
  | cons x xs ih =>
    by_cases hx : x.taskId = id ∧ x.lockedAt = none
    · simp only [tryClaim, if_pos hx]
      intro r hr hid
      rcases List.mem_cons.mp hr with h1 | h1
      · subst h1; simp
      · exact ih r h1 hid
    · simp only [tryClaim, if_neg hx]
      intro r hr hid
      rcases List.mem_cons.mp hr with h1 | h1
      · subst h1
        intro hnone
        exact hx ⟨hid, hnone⟩
      · exact ih r h1 hid

theorem tryClaim_zero_eq {s : Store} {id : String} {now : Nat}
    (h : (tryClaim s id now).2 = 0) : (tryClaim s id now).1 = s := by
  induction s with
  | nil => rfl
  | cons x xs ih =>
    by_cases hx : x.taskId = id ∧ x.lockedAt = none
    · simp only [tryClaim, if_pos hx] at h
      omega
    · simp only [tryClaim, if_neg hx] at h ⊢
      rw [ih h]

theorem findRow_unique {s : Store} {id : String} {r : TaskRow}
    (hwf : WF s) (h : findRow s id = some r) :
    ∀ q, q ∈ s → q.taskId = id → q = r := by
  induction s with
  | nil => simp [findRow] at h
  | cons x xs ih =>
    have hnd := hwf
    simp only [WF, List.map_cons, List.nodup_cons] at hnd
    intro q hq hqid
    by_cases hx : x.taskId = id
    · simp only [findRow, if_pos hx, Option.some.injEq] at h
      subst h
      rcases List.mem_cons.mp hq with h1 | h1
      · exact h1
      · exfalso
        have hmem : q.taskId ∈ xs.map TaskRow.taskId :=
          List.mem_map_of_mem TaskRow.taskId h1
        rw [hqid, ← hx] at hmem
        exact hnd.1 hmem
    · simp only [findRow, if_neg hx] at h
      rcases List.mem_cons.mp hq with h1 | h1
      · exact absurd (h1 ▸ hqid) hx
      · exact ih hnd.2 h q h1 hqid

theorem allLocked_of_locked {s : Store} {id : String} {r : TaskRow}
    (hwf : WF s) (h : findRow s id = some r) (hl : r.lockedAt ≠ none) :
    AllLocked s id := by
  intro q hq hqid
  rw [findRow_unique hwf h q hq hqid]
  exact hl

theorem tryClaim_success {s : Store} {id : String} {r : TaskRow} (now : Nat)
    (hwf : WF s) (h : findRow s id = some r) (hl : r.lockedAt = none) :
    (tryClaim s id now).2 = 1 ∧
      findRow (tryClaim s id now).1 id = some { r with lockedAt := some now } := by
  induction s with
  | nil => simp [findRow] at h
  | cons x xs ih =>
    have hnd := hwf
    simp only [WF, List.map_cons, List.nodup_cons] at hnd
    by_cases hx : x.taskId = id
    · simp only [findRow, if_pos hx, Option.some.injEq] at h
      subst h
      have hcond : x.taskId = id ∧ x.lockedAt = none := ⟨hx, hl⟩
      have hzero : tryClaim xs id now = (xs, 0) :=
        tryClaim_allLocked now (allLocked_of_not_mem (by simpa [hx] using hnd.1))
      simp only [tryClaim, if_pos hcond, hzero]
      exact ⟨by simp, by simp [findRow, hx]⟩
    · simp only [findRow, if_neg hx] at h
      have hcond : ¬(x.taskId = id ∧ x.lockedAt = none) := fun hc => hx hc.1
      rcases ih hnd.2 h with ⟨h1, h2⟩
      simp only [tryClaim, if_neg hcond]
      refine ⟨h1, ?_⟩
      simpa only [findRow, if_neg hx] using h2

theorem runClaims_allLocked {s : Store} {id : String} (ts : List Nat)
    (h : AllLocked s id) : runClaims id s ts = (s, 0) := by
  induction ts with
  | nil => rfl
  | cons t ts ih =>
    simp [runClaims, tryClaim_allLocked t h, ih]

theorem runClaims_le_one (s : Store) (id : String) (ts : List Nat) :
    (runClaims id s ts).2 ≤ 1 := by
  induction ts generalizing s with
  | nil => simp [runClaims]
  | cons t ts ih =>
    simp only [runClaims]
    by_cases hz : (tryClaim s id t).2 = 0
    · simpa [hz] using ih (tryClaim s id t).1
    · have hrest : runClaims id (tryClaim s id t).1 ts = ((tryClaim s id t).1, 0) :=
        runClaims_allLocked ts (allLocked_tryClaim s id t)
      simp [hz, hrest]

theorem findRow_releaseSuccess (s : Store) (id : String) (t : Nat) (res : String) :
    findRow (releaseSuccess s id t res) id =
      (findRow s id).map fun r =>
        { r with lastExecutedAt := some t, lockedAt := none,
                 lastResult := some (TaskResult.value res) } := by
  induction s with
  | nil => rfl
  | cons x xs ih =>
    by_cases hx : x.taskId = id
    · simp [releaseSuccess, findRow, hx]
    · simpa [releaseSuccess, findRow, hx] using ih

theorem findRow_releaseFailure (s : Store) (id : String) (msg : String) :
    findRow (releaseFailure s id msg) id =
      (findRow s id).map fun r =>
        { r with lockedAt := none, lastResult := some (TaskResult.failure msg) } := by
  induction s with
  | nil => rfl
  | cons x xs ih =>
    by_cases hx : x.taskId = id
    · simp [releaseFailure, findRow, hx]
    · simpa [releaseFailure, findRow, hx] using ih

theorem insertIgnore_of_found {s : Store} {id : String} {r : TaskRow}
    (h : findRow s id = some r) : insertIgnore s id = s := by
  simp [insertIgnore, hasRow, h]

theorem countId_append (s1 s2 : Store) (id : String) :
    countId (s1 ++ s2) id = countId s1 id + countId s2 id := by
  induction s1 with
  | nil => simp [countId]
  | cons x xs ih =>
    show (if x.taskId = id then 1 else 0) + countId (xs ++ s2) id
        = (if x.taskId = id then 1 else 0) + countId xs id + countId s2 id
    rw [ih]
    omega

theorem countId_eq_zero {s : Store} {id : String}
    (h : findRow s id = none) : countId s id = 0 := by
  induction s with
  | nil => rfl
  | cons x xs ih =>
    by_cases hx : x.taskId = id
    · simp [findRow, hx] at h
    · simp only [findRow, if_neg hx] at h
      simp [countId, hx, ih h]

theorem countId_pos {s : Store} {id : String} {r : TaskRow}
    (h : findRow s id = some r) : 1 ≤ countId s id := by
  induction s with
  | nil => simp [findRow] at h
  | cons x xs ih =>
    by_cases hx : x.taskId = id
    · simp [countId, hx]
    · simp only [findRow, if_neg hx] at h
      have := ih h
      simp only [countId, if_neg hx]
      omega

theorem countId_le_one {s : Store} (id : String) (hwf : WF s) :
    countId s id ≤ 1 := by
  induction s with
  | nil => simp [countId]
  | cons x xs ih =>
    have hnd := hwf
    simp only [WF, List.map_cons, List.nodup_cons] at hnd
    by_cases hx : x.taskId = id
    · have : findRow xs id = none := findRow_eq_none (by rw [← hx]; exact hnd.1)
      simp [countId, hx, countId_eq_zero this]
    · simp only [countId, if_neg hx]
      have := ih hnd.2
      omega

theorem findRow_append_none {s1 s2 : Store} {id : String}
    (h : findRow s1 id = none) : findRow (s1 ++ s2) id = findRow s2 id := by
  induction s1 with
  | nil => rfl
  | cons x xs ih =>
    by_cases hx : x.taskId = id
    · simp [findRow, hx] at h
    · simp only [findRow, if_neg hx] at h
      simp only [List.cons_append, findRow, if_neg hx]
      exact ih h

theorem executeTask_claimed_success {s : Store} {id : String} {r : TaskRow}
    (beh : StoreBehavior) (timeoutMs : Nat) (v : Option String) (now execTime : Nat)
    (hwf : WF s) (hr : findRow s id = some r) (hl : r.lockedAt = none)
    (hins : beh.insertOk = true) (hcl : beh.claimOk = true)
    (hsw : beh.successWriteOk = true) :
    executeTask beh false id timeoutMs (RaceOutcome.bodyValue v) now execTime s =
      { store := releaseSuccess (tryClaim s id now).1 id execTime (v.getD ""),
        logs := [LogEvent.verbose ("Executing scheduled task \"" ++ id ++ "\""),
                 LogEvent.verbose ("Scheduled task \"" ++ id ++ "\" completed successfully")],
        bodyExecuted := true, releaseWrites := 1, thrownOut := none } := by
  have hnz : ¬(tryClaim s id now).2 = 0 := by
    have := (tryClaim_success now hwf hr hl).1
    omega
  simp [executeTask, hins, hcl, hsw, insertIgnore_of_found hr, hnz]

theorem executeTask_claimed_threw {s : Store} {id : String} {r : TaskRow}
    (beh : StoreBehavior) (timeoutMs : Nat) (t : Thrown) (now execTime : Nat)
    (hwf : WF s) (hr : findRow s id = some r) (hl : r.lockedAt = none)
    (hins : beh.insertOk = true) (hcl : beh.claimOk = true)
    (hfw : beh.failureWriteOk = true) :
    executeTask beh false id timeoutMs (RaceOutcome.bodyThrew t) now execTime s =
      { store := releaseFailure (tryClaim s id now).1 id (errorMessage t),
        logs := [LogEvent.verbose ("Executing scheduled task \"" ++ id ++ "\""),
                 LogEvent.error ("Scheduled task \"" ++ id ++ "\" failed with error: "
                   ++ errorMessage t)],
        bodyExecuted := true, releaseWrites := 1, thrownOut := none } := by
  have hnz : ¬(tryClaim s id now).2 = 0 := by
    have := (tryClaim_success now hwf hr hl).1
    omega
  simp [executeTask, catchPath, hins, hcl, hfw, insertIgnore_of_found hr, hnz]

theorem executeTask_claimed_timeout {s : Store} {id : String} {r : TaskRow}
    (beh : StoreBehavior) (timeoutMs : Nat) (now execTime : Nat)
    (hwf : WF s) (hr : findRow s id = some r) (hl : r.lockedAt = none)
    (hins : beh.insertOk = true) (hcl : beh.claimOk = true)
    (hfw : beh.failureWriteOk = true) :
    executeTask beh false id timeoutMs RaceOutcome.timedOut now execTime s =
      { store := releaseFailure (tryClaim s id now).1 id "Task timed out",
        logs := [LogEvent.verbose ("Executing scheduled task \"" ++ id ++ "\""),
                 LogEvent.warn ("Scheduled task " ++ id ++ " timed out after "
                   ++ toString timeoutMs ++ "ms"),
                 LogEvent.error ("Scheduled task \"" ++ id
                   ++ "\" failed with error: " ++ "Task timed out")],
        bodyExecuted := true, releaseWrites := 1, thrownOut := none } := by
  have hnz : ¬(tryClaim s id now).2 = 0 := by
    have := (tryClaim_success now hwf hr hl).1
    omega
  simp [executeTask, catchPath, hins, hcl, hfw, insertIgnore_of_found hr, hnz]

theorem executeTask_claim_failed {s : Store} {id : String} {r : TaskRow}
    (beh : StoreBehavior) (timeoutMs : Nat) (outcome : RaceOutcome) (now execTime : Nat)
    (hwf : WF s) (hr : findRow s id = some r) (hl : r.lockedAt ≠ none)
    (hins : beh.insertOk = true) (hcl : beh.claimOk = true) :
    executeTask beh false id timeoutMs outcome now execTime s =
      { store := s, logs := [], bodyExecuted := false,
        releaseWrites := 0, thrownOut := none } := by
  have hz : tryClaim s id now = (s, 0) :=
    tryClaim_allLocked now (allLocked_of_locked hwf hr hl)
  simp [executeTask, hins, hcl, insertIgnore_of_found hr, hz]

/-! ### The claims -/

/-- C1: for every store state holding a row for a task id, among any number of
serialized concurrent `tryClaim` attempts at most one succeeds; when the row is
unlocked exactly one attempt affects a row and every later attempt observes
zero affected rows; when the row is locked every attempt observes zero
affected rows, so at most one process ever holds a non-null `lockedAt`. -/
theorem claim_C1_mutual_exclusion (s : Store) (id : String) (r : TaskRow)
    (ts : List Nat) (hwf : WF s) (hr : findRow s id = some r) :
    (runClaims id s ts).2 ≤ 1
    ∧ (r.lockedAt = none → ts ≠ [] → (runClaims id s ts).2 = 1)
    ∧ (r.lockedAt ≠ none → (runClaims id s ts).2 = 0) := by
  refine ⟨runClaims_le_one s id ts, ?_, ?_⟩
  · intro hl hts
    cases ts with
    | nil => exact absurd rfl hts
    | cons t ts =>
      have h1 := (tryClaim_success t hwf hr hl).1
      have hrest : runClaims id (tryClaim s id t).1 ts = ((tryClaim s id t).1, 0) :=
        runClaims_allLocked ts (allLocked_tryClaim s id t)
      simp [runClaims, hrest, h1]
  · intro hl
    rw [runClaims_allLocked ts (allLocked_of_locked hwf hr hl)]

/-- Witness for C1: three serialized claim attempts on a fresh `cleanup` row
produce exactly one success. -/
theorem claim_C1_witness :
    (runClaims "cleanup" [freshRow "cleanup"] [3, 3, 4]).2 = 1 :=
  (claim_C1_mutual_exclusion [freshRow "cleanup"] "cleanup" (freshRow "cleanup")
    [3, 3, 4] (by decide) (by decide)).2.1 rfl (by decide)

/-- C2: every attempt against a row it can claim ends with the row unlocked,
whatever the race outcome (value, failure, or timeout), provided the release
round-trips themselves reach the store. -/
theorem claim_C2_release_on_every_path (beh : StoreBehavior) (isServer : Bool)
    (s : Store) (id : String) (r : TaskRow) (timeoutMs : Nat)
    (outcome : RaceOutcome) (now execTime : Nat)
    (hwf : WF s) (hr : findRow s id = some r) (hl : r.lockedAt = none)
    (hsw : beh.successWriteOk = true) (hfw : beh.failureWriteOk = true) :
    ∃ q, findRow (executeTask beh isServer id timeoutMs outcome now execTime s).store id
        = some q ∧ q.lockedAt = none := by
  cases isServer with
  | true => exact ⟨r, by simpa [executeTask] using hr, hl⟩
  | false =>
    cases hins : beh.insertOk with
    | false => exact ⟨r, by simpa [executeTask, hins] using hr, hl⟩
    | true =>
      cases hcl : beh.claimOk with
      | false =>
        refine ⟨r, ?_, hl⟩
        simpa [executeTask, hins, hcl, insertIgnore_of_found hr] using hr
      | true =>
        have hclaimed := (tryClaim_success now hwf hr hl).2
        cases outcome with
        | bodyValue v =>
          rw [executeTask_claimed_success beh timeoutMs v now execTime hwf hr hl hins hcl hsw]
          have hfind : findRow (releaseSuccess (tryClaim s id now).1 id execTime
              (v.getD "")) id
              = some { r with
                       lastExecutedAt := some execTime,
                       lockedAt := none,
                       lastResult := some (TaskResult.value (v.getD "")) } := by
            rw [findRow_releaseSuccess, hclaimed]
            rfl
          exact ⟨_, hfind, rfl⟩
        | bodyThrew t =>
          rw [executeTask_claimed_threw beh timeoutMs t now execTime hwf hr hl hins hcl hfw]
          have hfind : findRow (releaseFailure (tryClaim s id now).1 id
              (errorMessage t)) id
              = some { r with
                       lockedAt := none,
                       lastResult := some (TaskResult.failure (errorMessage t)) } := by
            rw [findRow_releaseFailure, hclaimed]
            rfl
          exact ⟨_, hfind, rfl⟩
        | timedOut =>
          rw [executeTask_claimed_timeout beh timeoutMs now execTime hwf hr hl hins hcl hfw]
          have hfind : findRow (releaseFailure (tryClaim s id now).1 id
              "Task timed out") id
              = some { r with
                       lockedAt := none,
                       lastResult := some (TaskResult.failure "Task timed out") } := by
            rw [findRow_releaseFailure, hclaimed]
            rfl
          exact ⟨_, hfind, rfl⟩

/-- Witness for C2: a timed-out attempt on a fresh row leaves it unlocked. -/
theorem claim_C2_witness :
    ∃ q, findRow (executeTask reliable false "t" 50 RaceOutcome.timedOut 5 9
        [freshRow "t"]).store "t" = some q ∧ q.lockedAt = none :=
  claim_C2_release_on_every_path reliable false [freshRow "t"] "t" (freshRow "t")
    50 RaceOutcome.timedOut 5 9 (by decide) (by decide) rfl rfl rfl

/-- C3 counterexample: the claim `UPDATE` conditions only on `taskId` and
`lockedAt IS NULL`; firing a task whose row has `enabled = false` claims the
row (sets a non-null `lockedAt`) and executes the body. -/
theorem claim_C3_counterexample :
    tryClaim [{ taskId := "t", lockedAt := none, lastExecutedAt := none,
                lastResult := none, enabled := false }] "t" 5
      = ([{ taskId := "t", lockedAt := some 5, lastExecutedAt := none,
            lastResult := none, enabled := false }], 1)
    ∧ (executeTask reliable false "t" 100 (RaceOutcome.bodyValue (some "ok")) 5 9
        [{ taskId := "t", lockedAt := none, lastExecutedAt := none,
           lastResult := none, enabled := false }]).bodyExecuted = true := by
  decide

/-- C3 amended: the claim step never consults `enabled`: flipping the flag on
the rows for the fired id commutes with `tryClaim` and leaves the affected-row
count unchanged, so a disabled task is claimed exactly as an enabled one would
be; disabled-task exclusion can only happen upstream of this callback. -/
theorem claim_C3_enabled_not_consulted (s : Store) (id : String) (b : Bool)
    (now : Nat) :
    tryClaim (setEnabled s id b) id now
      = (setEnabled (tryClaim s id now).1 id b, (tryClaim s id now).2) := by
  induction s with
  | nil => rfl
  | cons x xs ih =>
    simp only [setEnabled] at ih ⊢
    by_cases hx : x.taskId = id
    · by_cases hlk : x.lockedAt = none
      · simp [tryClaim, hx, hlk, ih]
      · simp [tryClaim, hx, hlk, ih]
    · simp [tryClaim, hx, ih]

/-- C4 counterexample: a claimed attempt whose body rejects with
`new Error('boom')` releases the lock and records the failure, but leaves
`lastExecutedAt` untouched (still null) instead of setting it to the
completion timestamp `15` as the claim requires. -/
theorem claim_C4_counterexample :
    findRow (executeTask reliable false "t" 100
        (RaceOutcome.bodyThrew (Thrown.errorInstance "boom")) 5 15
        [freshRow "t"]).store "t"
      = some { taskId := "t", lockedAt := none, lastExecutedAt := none,
               lastResult := some (TaskResult.failure "boom"), enabled := true }
    ∧ findRow (executeTask reliable false "t" 100
        (RaceOutcome.bodyThrew (Thrown.errorInstance "boom")) 5 15
        [freshRow "t"]).store "t"
      ≠ some { taskId := "t", lockedAt := none, lastExecutedAt := some 15,
               lastResult := some (TaskResult.failure "boom"), enabled := true } := by
  decide

/-- C4 amended: on a failure or timeout outcome the catch-path release write
sets `lockedAt = null` and `lastResult = {error: message}` but leaves
`lastExecutedAt` unchanged; only the success path records `lastExecutedAt`. -/
theorem claim_C4_failure_release (s : Store) (id : String) (r : TaskRow)
    (timeoutMs now execTime : Nat) (t : Thrown)
    (hwf : WF s) (hr : findRow s id = some r) (hl : r.lockedAt = none) :
    findRow (executeTask reliable false id timeoutMs (RaceOutcome.bodyThrew t)
        now execTime s).store id
      = some { r with
               lockedAt := none,
               lastResult := some (TaskResult.failure (errorMessage t)) }
    ∧ findRow (executeTask reliable false id timeoutMs RaceOutcome.timedOut
        now execTime s).store id
      = some { r with
               lockedAt := none,
               lastResult := some (TaskResult.failure "Task timed out") } := by
  have hclaimed := (tryClaim_success now hwf hr hl).2
  constructor
  · rw [executeTask_claimed_threw reliable timeoutMs t now execTime hwf hr hl rfl rfl rfl]
    show findRow (releaseFailure (tryClaim s id now).1 id (errorMessage t)) id = _
    rw [findRow_releaseFailure, hclaimed]
    rfl
  · rw [executeTask_claimed_timeout reliable timeoutMs now execTime hwf hr hl rfl rfl rfl]
    show findRow (releaseFailure (tryClaim s id now).1 id "Task timed out") id = _
    rw [findRow_releaseFailure, hclaimed]
    rfl

/-- Witness for C4 amended: concrete failing and timed-out attempts. -/
theorem claim_C4_witness :
    findRow (executeTask reliable false "t" 100
        (RaceOutcome.bodyThrew (Thrown.errorInstance "boom")) 5 15
        [freshRow "t"]).store "t"
      = some { freshRow "t" with
               lockedAt := none,
               lastResult := some (TaskResult.failure "boom") }
    ∧ findRow (executeTask reliable false "t" 100 RaceOutcome.timedOut 5 15
        [freshRow "t"]).store "t"
      = some { freshRow "t" with
               lockedAt := none,
               lastResult := some (TaskResult.failure "Task timed out") } :=
  claim_C4_failure_release [freshRow "t"] "t" (freshRow "t") 100 5 15
    (Thrown.errorInstance "boom") (by decide) (by decide) rfl

/-- C5 counterexample: when the row-creation insert (or the claim update)
fails with a `StoreUnavailable` condition, the rejection escapes the trigger
callback: those awaits sit outside the try block of `executeTask`. -/
theorem claim_C5_counterexample :
    (executeTask { insertOk := false, claimOk := true,
                   successWriteOk := true, failureWriteOk := true }
        false "t" 100 (RaceOutcome.bodyValue (some "ok"))
        5 9 [freshRow "t"]).thrownOut = some "StoreUnavailable"
    ∧ (executeTask { insertOk := true, claimOk := false,
                     successWriteOk := true, failureWriteOk := true }
        false "t" 100 (RaceOutcome.bodyValue (some "ok"))
        5 9 [freshRow "t"]).thrownOut = some "StoreUnavailable" := by
  decide

/-- C5 amended: body failures and timeouts are contained within the callback;
when every store round-trip succeeds the callback never rejects, for any
behaviour of the task body. (Store failures of the insert, of the claim
update, or of the catch-path release write do propagate.) -/
theorem claim_C5_contained_when_store_ok (isServer : Bool) (id : String)
    (timeoutMs : Nat) (outcome : RaceOutcome) (now execTime : Nat) (s : Store) :
    (executeTask reliable isServer id timeoutMs outcome now execTime s).thrownOut
      = none := by
  cases isServer with
  | true => rfl
  | false =>
    by_cases hz : (tryClaim (insertIgnore s id) id now).2 = 0
    · simp [executeTask, reliable, hz]
    · cases outcome with
      | bodyValue v => simp [executeTask, reliable, hz]
      | bodyThrew t => simp [executeTask, catchPath, reliable, hz]
      | timedOut => simp [executeTask, catchPath, reliable, hz]

/-- C6: a claimed attempt cut off by the timeout persists
`lastResult = {error: "Task timed out"}`, logs a warning, still releases the
lease, and performs exactly one release write (the abandoned body never
produces a second write). -/
theorem claim_C6_timeout (s : Store) (id : String) (r : TaskRow)
    (timeoutMs now execTime : Nat)
    (hwf : WF s) (hr : findRow s id = some r) (hl : r.lockedAt = none) :
    findRow (executeTask reliable false id timeoutMs RaceOutcome.timedOut
        now execTime s).store id
      = some { r with
               lockedAt := none,
               lastResult := some (TaskResult.failure "Task timed out") }
    ∧ LogEvent.warn ("Scheduled task " ++ id ++ " timed out after "
        ++ toString timeoutMs ++ "ms")
      ∈ (executeTask reliable false id timeoutMs RaceOutcome.timedOut
          now execTime s).logs
    ∧ (executeTask reliable false id timeoutMs RaceOutcome.timedOut
        now execTime s).releaseWrites = 1 := by
  have hclaimed := (tryClaim_success now hwf hr hl).2
  rw [executeTask_claimed_timeout reliable timeoutMs now execTime hwf hr hl rfl rfl rfl]
  refine ⟨?_, ?_, rfl⟩
  · show findRow (releaseFailure (tryClaim s id now).1 id "Task timed out") id = _
    rw [findRow_releaseFailure, hclaimed]
    rfl
  · simp

/-- Witness for C6: the `rebuild-index` scenario, timeout 20ms. -/
theorem claim_C6_witness :
    findRow (executeTask reliable false "rebuild-index" 20 RaceOutcome.timedOut
        5 7 [freshRow "rebuild-index"]).store "rebuild-index"
      = some { freshRow "rebuild-index" with
               lockedAt := none,
               lastResult := some (TaskResult.failure "Task timed out") }
    ∧ LogEvent.warn ("Scheduled task " ++ "rebuild-index" ++ " timed out after "
        ++ toString 20 ++ "ms")
      ∈ (executeTask reliable false "rebuild-index" 20 RaceOutcome.timedOut
          5 7 [freshRow "rebuild-index"]).logs
    ∧ (executeTask reliable false "rebuild-index" 20 RaceOutcome.timedOut
        5 7 [freshRow "rebuild-index"]).releaseWrites = 1 :=
  claim_C6_timeout [freshRow "rebuild-index"] "rebuild-index"
    (freshRow "rebuild-index") 20 5 7 (by decide) (by decide) rfl

/-- C7: when the claim update affects zero rows (the row is already locked),
the callback returns with the store unchanged, no log event at any level, the
body never executed, no release write, and nothing thrown. -/
theorem claim_C7_silent_abort (s : Store) (id : String) (r : TaskRow) (t0 : Nat)
    (timeoutMs : Nat) (outcome : RaceOutcome) (now execTime : Nat)
    (hwf : WF s) (hr : findRow s id = some r) (hl : r.lockedAt = some t0) :
    executeTask reliable false id timeoutMs outcome now execTime s
      = { store := s, logs := [], bodyExecuted := false,
          releaseWrites := 0, thrownOut := none } :=
  executeTask_claim_failed reliable timeoutMs outcome now execTime hwf hr
    (by simp [hl]) rfl rfl

/-- Witness for C7: firing against a row locked at time 3 is a silent no-op. -/
theorem claim_C7_witness :
    executeTask reliable false "t" 100 (RaceOutcome.bodyValue (some "ok")) 5 9
        [{ taskId := "t", lockedAt := some 3, lastExecutedAt := none,
           lastResult := none, enabled := true }]
      = { store := [{ taskId := "t", lockedAt := some 3, lastExecutedAt := none,
                      lastResult := none, enabled := true }],
          logs := [], bodyExecuted := false, releaseWrites := 0,
          thrownOut := none } :=
  claim_C7_silent_abort
    [{ taskId := "t", lockedAt := some 3, lastExecutedAt := none,
       lastResult := none, enabled := true }] "t"
    { taskId := "t", lockedAt := some 3, lastExecutedAt := none,
      lastResult := none, enabled := true } 3 100
    (RaceOutcome.bodyValue (some "ok")) 5 9 (by decide) (by decide) rfl

/-- C8: row creation is idempotent: inserting twice equals inserting once;
when the row already exists the insert is a no-op (not an error); afterwards
exactly one row exists for the id; and a freshly created row has null
`lockedAt` and null `lastExecutedAt`. -/
theorem claim_C8_idempotent_row_creation (s : Store) (id : String) (hwf : WF s) :
    insertIgnore (insertIgnore s id) id = insertIgnore s id
    ∧ (hasRow s id = true → insertIgnore s id = s)
    ∧ countId (insertIgnore s id) id = 1
    ∧ (hasRow s id = false → findRow (insertIgnore s id) id = some (freshRow id))
    ∧ (freshRow id).lockedAt = none ∧ (freshRow id).lastExecutedAt = none := by
  by_cases h : hasRow s id = true
  · obtain ⟨r, hr⟩ : ∃ r, findRow s id = some r := by
      unfold hasRow at h
      cases hf : findRow s id with
      | none => rw [hf] at h; simp at h
      | some r => exact ⟨r, rfl⟩
    have heq : insertIgnore s id = s := insertIgnore_of_found hr
    refine ⟨?_, fun _ => heq, ?_, ?_, rfl, rfl⟩
    · rw [heq, heq]
    · rw [heq]
      have h1 := countId_pos hr
      have h2 := countId_le_one id hwf
      omega
    · intro hfalse
      rw [h] at hfalse
      exact absurd hfalse (by simp)
  · rw [Bool.not_eq_true] at h
    have hnone : findRow s id = none := by
      unfold hasRow at h
      cases hf : findRow s id with
      | none => rfl
      | some r => rw [hf] at h; simp at h
    have hins : insertIgnore s id = s ++ [freshRow id] := by
      simp [insertIgnore, hasRow, hnone]
    have hfind2 : findRow (insertIgnore s id) id = some (freshRow id) := by
      rw [hins, findRow_append_none hnone]
      simp [findRow, freshRow]
    refine ⟨insertIgnore_of_found hfind2, ?_, ?_, fun _ => hfind2, rfl, rfl⟩
    · intro htrue
      rw [h] at htrue
      exact absurd htrue (by simp)
    · rw [hins, countId_append, countId_eq_zero hnone]
      simp [countId, freshRow]

/-- Witness for C8: creating the `cleanup` row in a store that only holds a
row for another task. -/
theorem claim_C8_witness :
    insertIgnore (insertIgnore [freshRow "other"] "cleanup") "cleanup"
      = insertIgnore [freshRow "other"] "cleanup"
    ∧ (hasRow [freshRow "other"] "cleanup" = true →
        insertIgnore [freshRow "other"] "cleanup" = [freshRow "other"])
    ∧ countId (insertIgnore [freshRow "other"] "cleanup") "cleanup" = 1
    ∧ (hasRow [freshRow "other"] "cleanup" = false →
        findRow (insertIgnore [freshRow "other"] "cleanup") "cleanup"
          = some (freshRow "cleanup"))
    ∧ (freshRow "cleanup").lockedAt = none
    ∧ (freshRow "cleanup").lastExecutedAt = none :=
  claim_C8_idempotent_row_creation [freshRow "other"] "cleanup" (by decide)

/-- C9: `getTasks` maps every row and `getTask` the row with the given id (or
none when absent) to exactly the report shape
`{id, lastExecutedAt, isRunning: lockedAt !== null, lastResult, enabled}`;
after a successful run with result `"ok"` the report shows `isRunning = false`,
`lastResult = "ok"` and `lastExecutedAt` set to the completion time. -/
theorem claim_C9_reporting (s : Store) (id : String) (r : TaskRow)
    (timeoutMs now execTime : Nat)
    (hwf : WF s) (hr : findRow s id = some r) (hl : r.lockedAt = none) :
    getTasks s = s.map entityToReport
    ∧ (∀ q : TaskRow, entityToReport q
        = { id := q.taskId, lastExecutedAt := q.lastExecutedAt,
            isRunning := q.lockedAt.isSome, lastResult := q.lastResult,
            enabled := q.enabled })
    ∧ (∀ s2 : Store, ∀ id2 : String, findRow s2 id2 = none → getTask s2 id2 = none)
    ∧ getTask (executeTask reliable false id timeoutMs
        (RaceOutcome.bodyValue (some "ok")) now execTime s).store id
      = some { id := id, lastExecutedAt := some execTime, isRunning := false,
               lastResult := some (TaskResult.value "ok"), enabled := r.enabled } := by
  have hid : r.taskId = id := (findRow_mem hr).2
  have hclaimed := (tryClaim_success now hwf hr hl).2
  refine ⟨rfl, fun q => rfl, ?_, ?_⟩
  · intro s2 id2 hnone
    simp [getTask, hnone]
  · rw [executeTask_claimed_success reliable timeoutMs (some "ok") now execTime
      hwf hr hl rfl rfl rfl]
    show getTask (releaseSuccess (tryClaim s id now).1 id execTime
      ((some "ok").getD "")) id = _
    unfold getTask
    rw [findRow_releaseSuccess, hclaimed]
    simp [entityToReport, hid]

/-- Witness for C9: a successful `"ok"` run against a fresh `t` row. -/
theorem claim_C9_witness :
    getTasks [freshRow "t"] = [freshRow "t"].map entityToReport
    ∧ (∀ q : TaskRow, entityToReport q
        = { id := q.taskId, lastExecutedAt := q.lastExecutedAt,
            isRunning := q.lockedAt.isSome, lastResult := q.lastResult,
            enabled := q.enabled })
    ∧ (∀ s2 : Store, ∀ id2 : String, findRow s2 id2 = none → getTask s2 id2 = none)
    ∧ getTask (executeTask reliable false "t" 100
        (RaceOutcome.bodyValue (some "ok")) 5 9 [freshRow "t"]).store "t"
      = some { id := "t", lastExecutedAt := some 9, isRunning := false,
               lastResult := some (TaskResult.value "ok"),
               enabled := (freshRow "t").enabled } :=
  claim_C9_reporting [freshRow "t"] "t" (freshRow "t") 100 5 9
    (by decide) (by decide) rfl

/-- C10: a claimed attempt whose body rejects with a non-`Error` value
persists `lastResult = {error: "Unknown error"}`, whatever the thrown value
was: only `Error` instances contribute their message. -/
theorem claim_C10_unknown_error (s : Store) (id : String) (r : TaskRow)
    (v : String) (timeoutMs now execTime : Nat)
    (hwf : WF s) (hr : findRow s id = some r) (hl : r.lockedAt = none) :
    findRow (executeTask reliable false id timeoutMs
        (RaceOutcome.bodyThrew (Thrown.nonError v)) now execTime s).store id
      = some { r with
               lockedAt := none,
               lastResult := some (TaskResult.failure "Unknown error") } := by
  have hclaimed := (tryClaim_success now hwf hr hl).2
  rw [executeTask_claimed_threw reliable timeoutMs (Thrown.nonError v) now
    execTime hwf hr hl rfl rfl rfl]
  show findRow (releaseFailure (tryClaim s id now).1 id
    (errorMessage (Thrown.nonError v))) id = _
  rw [findRow_releaseFailure, hclaimed]
  rfl

/-- Witness for C10: the body throws the string `"weird"` (not an `Error`). -/
theorem claim_C10_witness :
    findRow (executeTask reliable false "t" 100
        (RaceOutcome.bodyThrew (Thrown.nonError "weird")) 5 9
        [freshRow "t"]).store "t"
      = some { freshRow "t" with
               lockedAt := none,
               lastResult := some (TaskResult.failure "Unknown error") } :=
  claim_C10_unknown_error [freshRow "t"] "t" (freshRow "t") "weird" 100 5 9
    (by decide) (by decide) rfl

end Scheduler
